import Mathlib

/-!
Shallow embedding of the incremental aggregation and rollover engine of
`src/dataCollector.py` (class `DataCollector`), the authoritative source.

Modelling choices:
* Prices are exact rationals (`ℚ`); the spec's floating-point tolerance is
  subsumed by exact arithmetic.
* Timestamps are seconds since an epoch (`ℕ`); a Python `datetime`'s
  `.date()` is `t / 86400`, its `.hour` is `t % 86400 / 3600`, and
  `.replace(minute=0, second=0, microsecond=0)` truncates to a multiple
  of 3600.
* The per-symbol dictionary `self.running_metrics` becomes a total function
  `String → RunningMetrics` together with the tracked-symbol list
  `symbols`; the Python `KeyError` raised by `self.running_metrics[symbol]`
  for an untracked symbol becomes the `Except` error `IngestError.keyError`.
* Python truthiness: `if not metrics['open_price']` is falsy exactly when
  the field is `None` or equal to `0`, which `falsyOpt` captures.
-/

namespace DataCollector

/-- One per-symbol accumulator, mirroring the dictionary built in
`DataCollector.__init__` (src/dataCollector.py lines 20-30). -/
structure RunningMetrics where
  latest_price : Option ℚ
  high_price : Option ℚ
  low_price : Option ℚ
  open_price : Option ℚ
  latest_timestamp : Option ℕ
  avg_price : ℚ
  sample_count : ℕ
  deriving DecidableEq, Repr

/-- The empty accumulator each tracked symbol starts from
(src/dataCollector.py lines 21-29). -/
def emptyMetrics : RunningMetrics :=
  { latest_price := none
    high_price := none
    low_price := none
    open_price := none
    latest_timestamp := none
    avg_price := 0
    sample_count := 0 }

/-- Python truthiness test used by `if not metrics['open_price']`
(line 83): falsy iff `None` or `0.0`. -/
def falsyOpt : Option ℚ → Bool
  | none => true
  | some x => x == 0

/-- Body of `update_running_metrics` acting on one symbol's accumulator
(src/dataCollector.py lines 83-94), translated statement by statement. -/
def updateMetrics (price : ℚ) (timestamp : ℕ) (m : RunningMetrics) :
    RunningMetrics :=
  let openP := if falsyOpt m.open_price then some price else m.open_price
  let highP := match m.high_price with
    | some h => some (max price h)
    | none => some price
  let lowP := match m.low_price with
    | some l => some (min price l)
    | none => some price
  let total_sum := m.avg_price * (m.sample_count : ℚ) + price
  let newCount := m.sample_count + 1
  { latest_price := some price
    high_price := highP
    low_price := lowP
    open_price := openP
    latest_timestamp := some timestamp
    avg_price := total_sum / (newCount : ℚ)
    sample_count := newCount }

/-- Engine state: the tracked-symbol list and the per-symbol accumulators
(the `self.symbols` list and the `self.running_metrics` dict). -/
structure CollectorState where
  symbols : List String
  running_metrics : String → RunningMetrics

/-- The only failure `update_running_metrics` can raise: the `KeyError`
of the dict lookup `self.running_metrics[symbol]` for an untracked
symbol (the spec calls this condition `UnknownInstrumentError`). -/
inductive IngestError where
  | keyError
  deriving DecidableEq, Repr

/-- `DataCollector.update_running_metrics` (src/dataCollector.py lines
80-94) as a state transformer: the dict lookup fails for an untracked
symbol, otherwise exactly that symbol's accumulator is replaced. -/
def update_running_metrics (st : CollectorState) (symbol : String)
    (price : ℚ) (timestamp : ℕ) : Except IngestError CollectorState :=
  if symbol ∈ st.symbols then
    .ok { st with
      running_metrics := fun s =>
        if s = symbol then updateMetrics price timestamp (st.running_metrics s)
        else st.running_metrics s }
  else
    .error .keyError

/-- The tracked-symbol list of `DataCollector.__init__`
(src/dataCollector.py line 16). -/
def initSymbols : List String := ["BTCUSDT", "ETHUSDT", "LTCBTC"]

/-- Engine state at construction: every tracked symbol maps to the empty
accumulator (src/dataCollector.py lines 20-30). -/
def initState : CollectorState :=
  { symbols := initSymbols, running_metrics := fun _ => emptyMetrics }

/-- One row inserted into `downsampled_prices`
(src/dataCollector.py lines 146-161). -/
structure RolloverRecord where
  date : ℕ
  hour : ℕ
  symbol : String
  open_price : Option ℚ
  high_price : Option ℚ
  low_price : Option ℚ
  close_price : Option ℚ
  avg_price : ℚ
  sample_count : ℕ
  deriving DecidableEq, Repr

/-- The row `store_downsampled_data` inserts for one symbol, with
`hour_datetime` a timestamp in seconds: `date` is `.date()`, `hour` is
`.hour` (src/dataCollector.py lines 146-161). -/
def mkRecord (hour_datetime : ℕ) (symbol : String) (m : RunningMetrics) :
    RolloverRecord :=
  { date := hour_datetime / 86400
    hour := hour_datetime % 86400 / 3600
    symbol := symbol
    open_price := m.open_price
    high_price := m.high_price
    low_price := m.low_price
    close_price := m.latest_price
    avg_price := m.avg_price
    sample_count := m.sample_count }

/-- `DataCollector.store_downsampled_data` (src/dataCollector.py lines
140-163) as the sequence of rows inserted: the dict iteration order of
`self.running_metrics.items()` is the insertion order, i.e. `symbols`. -/
def store_downsampled_data (st : CollectorState) (hour_datetime : ℕ) :
    List RolloverRecord :=
  st.symbols.filterMap fun symbol =>
    if (st.running_metrics symbol).sample_count > 0 then
      some (mkRecord hour_datetime symbol (st.running_metrics symbol))
    else none

/-- `DataCollector.reset_running_metrics` (src/dataCollector.py lines
166-175): every tracked symbol's accumulator is cleared. -/
def reset_running_metrics (st : CollectorState) : CollectorState :=
  { st with
    running_metrics := fun s =>
      if s ∈ st.symbols then emptyMetrics else st.running_metrics s }

/-- Hour-of-day of a timestamp, the Python `.hour` attribute used by the
driver loop's comparison `current_time.hour != current_hour`
(src/dataCollector.py line 186). -/
def hourOfDay (t : ℕ) : ℕ := t % 86400 / 3600

/-- Bucket key of a timestamp under hourly buckets: the hour index since
the epoch (identifies the `(date, hour)` pair uniquely). -/
def bucketKeyFor (t : ℕ) : ℕ := t / 3600

/-- The datetime the driver loop passes to `store_downsampled_data` on a
boundary crossing: `current_time - timedelta(hours=1)` truncated to the
start of its hour (src/dataCollector.py lines 187-188). -/
def rolloverTagTime (current_time : ℕ) : ℕ :=
  (current_time - 3600) / 3600 * 3600

/-- The boundary-handling block of `DataCollector.run`
(src/dataCollector.py lines 184-191): given the loop variable
`current_hour` and the tick's `current_time`, returns the emitted rows,
the state after the conditional reset, and the new `current_hour`. -/
def runBoundaryStep (st : CollectorState) (current_hour : ℕ)
    (current_time : ℕ) : List RolloverRecord × CollectorState × ℕ :=
  if hourOfDay current_time ≠ current_hour then
    (store_downsampled_data st (rolloverTagTime current_time),
     reset_running_metrics st,
     hourOfDay current_time)
  else
    ([], st, current_hour)

/-- Folding a batch of (price, timestamp) samples for one symbol through
`update_running_metrics`'s accumulator body. -/
def ingestSamples (m : RunningMetrics) (samples : List (ℚ × ℕ)) :
    RunningMetrics :=
  samples.foldl (fun acc pt => updateMetrics pt.1 pt.2 acc) m

/-- The invariant of claim C7: a zero sample count coincides with every
optional field being unset. -/
def countZeroIffUnset (m : RunningMetrics) : Prop :=
  m.sample_count = 0 ↔
    m.open_price = none ∧ m.high_price = none ∧ m.low_price = none ∧
    m.latest_price = none ∧ m.latest_timestamp = none

/-- A concrete engine state with one sample (price 100 at 08:30:00)
ingested into BTCUSDT, used to instantiate theorems at explicit inputs. -/
def demoState : CollectorState :=
  { initState with
    running_metrics := fun s =>
      if s = "BTCUSDT" then updateMetrics 100 30600 emptyMetrics
      else emptyMetrics }

/-! ## Basic unfolding lemmas -/

theorem ingestSamples_nil (m : RunningMetrics) : ingestSamples m [] = m := rfl

theorem ingestSamples_cons (m : RunningMetrics) (pt : ℚ × ℕ)
    (ss : List (ℚ × ℕ)) :
    ingestSamples m (pt :: ss) = ingestSamples (updateMetrics pt.1 pt.2 m) ss :=
  rfl

theorem updateMetrics_sample_count (p : ℚ) (t : ℕ) (m : RunningMetrics) :
    (updateMetrics p t m).sample_count = m.sample_count + 1 := rfl

theorem updateMetrics_avg_mul (p : ℚ) (t : ℕ) (m : RunningMetrics) :
    (updateMetrics p t m).avg_price * ((updateMetrics p t m).sample_count : ℚ)
      = m.avg_price * (m.sample_count : ℚ) + p := by
  have hne : ((m.sample_count + 1 : ℕ) : ℚ) ≠ 0 := by
    push_cast
    positivity
  simp only [updateMetrics]
  exact div_mul_cancel₀ _ hne

theorem ingestSamples_sample_count (ss : List (ℚ × ℕ)) (m : RunningMetrics) :
    (ingestSamples m ss).sample_count = m.sample_count + ss.length := by
  induction ss generalizing m with
  | nil => simp [ingestSamples_nil]
  | cons pt ss ih =>
    rw [ingestSamples_cons, ih, updateMetrics_sample_count, List.length_cons]
    omega

theorem ingestSamples_avg_mul (ss : List (ℚ × ℕ)) (m : RunningMetrics) :
    (ingestSamples m ss).avg_price * ((ingestSamples m ss).sample_count : ℚ)
      = m.avg_price * (m.sample_count : ℚ) + (ss.map Prod.fst).sum := by
  induction ss generalizing m with
  | nil => simp [ingestSamples_nil]
  | cons pt ss ih =>
    rw [ingestSamples_cons, ih, updateMetrics_avg_mul, List.map_cons,
      List.sum_cons]
    ring

/-! ## C1: average correctness -/

/-- C1: starting from the empty accumulator, after ingesting any nonempty
sequence of positive prices, `avg_price` is exactly the sum of the prices
divided by their number, and `sample_count` is their number. -/
theorem avg_price_correct (ss : List (ℚ × ℕ)) (hne : ss ≠ [])
    (hpos : ∀ p ∈ ss.map Prod.fst, 0 < p) :
    (ingestSamples emptyMetrics ss).avg_price
        = (ss.map Prod.fst).sum / (ss.length : ℚ) ∧
    (ingestSamples emptyMetrics ss).sample_count = ss.length := by
  have hc := ingestSamples_sample_count ss emptyMetrics
  have hs := ingestSamples_avg_mul ss emptyMetrics
  have h0 : emptyMetrics.sample_count = 0 := rfl
  have h1 : emptyMetrics.avg_price = 0 := rfl
  rw [h0, h1, Nat.cast_zero, mul_zero, zero_add] at hs
  rw [h0, zero_add] at hc
  have hlen : ((ss.length : ℕ) : ℚ) ≠ 0 := by
    have : ss.length ≠ 0 := fun h => hne (List.length_eq_zero.mp h)
    exact_mod_cast this
  refine ⟨?_, hc⟩
  rw [eq_div_iff hlen, ← hc]
  exact hs

/-- Witness for C1 at the concrete input `[(1, 0), (2, 1)]`. -/
theorem avg_price_correct_witness :
    (ingestSamples emptyMetrics [((1 : ℚ), 0), (2, 1)]).avg_price
        = (([((1 : ℚ), 0), (2, 1)].map Prod.fst).sum
            / (([((1 : ℚ), 0), (2, 1)].length : ℕ) : ℚ)) ∧
    (ingestSamples emptyMetrics [((1 : ℚ), 0), (2, 1)]).sample_count = 2 := by
  have h := avg_price_correct [((1 : ℚ), 0), (2, 1)] (by simp) (by norm_num)
  exact ⟨h.1, h.2⟩

/-! ## C4: open-price invariance -/

theorem updateMetrics_open_preserved (p q : ℚ) (t : ℕ) (m : RunningMetrics)
    (h : m.open_price = some q) (hq : q ≠ 0) :
    (updateMetrics p t m).open_price = some q := by
  simp [updateMetrics, falsyOpt, h, hq]

theorem ingestSamples_open_preserved (ss : List (ℚ × ℕ)) (m : RunningMetrics)
    (q : ℚ) (h : m.open_price = some q) (hq : q ≠ 0) :
    (ingestSamples m ss).open_price = some q := by
  induction ss generalizing m with
  | nil => simpa [ingestSamples_nil] using h
  | cons pt ss ih =>
    rw [ingestSamples_cons]
    exact ih _ (updateMetrics_open_preserved pt.1 q pt.2 m h hq)

/-- C4: starting empty, after ingesting `(p1, t1)` followed by any further
samples, `open_price` is still `some p1`, provided `p1 > 0` (the source's
truthiness test `if not metrics['open_price']` never re-fires on a
nonzero stored open). -/
theorem open_price_invariant (p1 : ℚ) (t1 : ℕ) (rest : List (ℚ × ℕ))
    (hp : 0 < p1) :
    (ingestSamples emptyMetrics ((p1, t1) :: rest)).open_price = some p1 := by
  rw [ingestSamples_cons]
  refine ingestSamples_open_preserved rest _ p1 ?_ (ne_of_gt hp)
  simp [updateMetrics, emptyMetrics, falsyOpt]

/-- Witness for C4 at prices `[2, 1, 5]`. -/
theorem open_price_invariant_witness :
    (ingestSamples emptyMetrics [((2 : ℚ), 0), (1, 1), (5, 2)]).open_price
      = some 2 :=
  open_price_invariant 2 0 [(1, 1), (5, 2)] (by norm_num)

/-! ## C6: monotone high/low bounds -/

theorem updateMetrics_low (p : ℚ) (t : ℕ) (m : RunningMetrics) (l : ℚ)
    (hl : m.low_price = some l) :
    (updateMetrics p t m).low_price = some (min p l) := by
  simp [updateMetrics, hl]

theorem updateMetrics_high (p : ℚ) (t : ℕ) (m : RunningMetrics) (h : ℚ)
    (hh : m.high_price = some h) :
    (updateMetrics p t m).high_price = some (max p h) := by
  simp [updateMetrics, hh]

theorem ingestSamples_bounds (ss : List (ℚ × ℕ)) (m : RunningMetrics)
    (l h : ℚ) (hl : m.low_price = some l) (hh : m.high_price = some h) :
    ∃ l' h', (ingestSamples m ss).low_price = some l' ∧
      (ingestSamples m ss).high_price = some h' ∧ l' ≤ l ∧ h ≤ h' ∧
      ∀ p ∈ ss.map Prod.fst, l' ≤ p ∧ p ≤ h' := by
  induction ss generalizing m l h with
  | nil =>
    exact ⟨l, h, by simpa [ingestSamples_nil] using hl,
      by simpa [ingestSamples_nil] using hh, le_refl l, le_refl h, by simp⟩
  | cons pt ss ih =>
    rw [ingestSamples_cons]
    obtain ⟨l', h', e1, e2, le1, le2, hall⟩ :=
      ih (updateMetrics pt.1 pt.2 m) (min pt.1 l) (max pt.1 h)
        (updateMetrics_low pt.1 pt.2 m l hl)
        (updateMetrics_high pt.1 pt.2 m h hh)
    refine ⟨l', h', e1, e2, le_trans le1 (min_le_right _ _),
      le_trans (le_max_right _ _) le2, ?_⟩
    intro p hp
    rw [List.map_cons, List.mem_cons] at hp
    rcases hp with rfl | hp
    · exact ⟨le_trans le1 (min_le_left _ _),
        le_trans (le_max_left _ _) le2⟩
    · exact hall p hp

/-- C6: starting empty, after ingesting any nonempty sequence of samples,
`low_price` and `high_price` are set and bound every ingested price
(so low is the running minimum and high the running maximum; applying
this to each prefix gives the bound after each individual ingest). -/
theorem low_high_bound_all_prices (ss : List (ℚ × ℕ)) (hne : ss ≠ []) :
    ∃ l h, (ingestSamples emptyMetrics ss).low_price = some l ∧
      (ingestSamples emptyMetrics ss).high_price = some h ∧
      ∀ p ∈ ss.map Prod.fst, l ≤ p ∧ p ≤ h := by
  obtain ⟨pt, rest, rfl⟩ := List.exists_cons_of_ne_nil hne
  rw [ingestSamples_cons]
  obtain ⟨l, h, e1, e2, le1, le2, hall⟩ :=
    ingestSamples_bounds rest (updateMetrics pt.1 pt.2 emptyMetrics) pt.1 pt.1
      (by simp [updateMetrics, emptyMetrics]) (by simp [updateMetrics, emptyMetrics])
  refine ⟨l, h, e1, e2, ?_⟩
  intro p hp
  rw [List.map_cons, List.mem_cons] at hp
  rcases hp with rfl | hp
  · exact ⟨le1, le2⟩
  · exact hall p hp

/-- Witness for C6 at the concrete input `[(3, 0), (1, 1), (7, 2)]`. -/
theorem low_high_bound_all_prices_witness :
    ∃ l h, (ingestSamples emptyMetrics [((3 : ℚ), 0), (1, 1), (7, 2)]).low_price
        = some l ∧
      (ingestSamples emptyMetrics [((3 : ℚ), 0), (1, 1), (7, 2)]).high_price
        = some h ∧
      ∀ p ∈ ([((3 : ℚ), 0), (1, 1), (7, 2)].map Prod.fst), l ≤ p ∧ p ≤ h :=
  low_high_bound_all_prices [((3 : ℚ), 0), (1, 1), (7, 2)] (by simp)

/-! ## C7: zero-count iff all-unset invariant -/

/-- C7: the invariant `sample_count = 0 ↔ all optional fields unset` holds
for every instrument at engine construction, holds after every
`update_running_metrics` body (unconditionally), and is preserved by
`reset_running_metrics`. -/
theorem count_zero_iff_unset_invariant :
    (∀ s, countZeroIffUnset (initState.running_metrics s)) ∧
    (∀ (m : RunningMetrics) (p : ℚ) (t : ℕ),
      countZeroIffUnset (updateMetrics p t m)) ∧
    (∀ (st : CollectorState) (s : String),
      countZeroIffUnset (st.running_metrics s) →
      countZeroIffUnset ((reset_running_metrics st).running_metrics s)) := by
  refine ⟨?_, ?_, ?_⟩
  · intro s
    simp [initState, emptyMetrics, countZeroIffUnset]
  · intro m p t
    cases hop : m.open_price <;>
      simp [updateMetrics, countZeroIffUnset, falsyOpt, hop]
  · intro st s hinv
    by_cases hs : s ∈ st.symbols
    · simp [reset_running_metrics, hs, emptyMetrics, countZeroIffUnset]
    · simpa [reset_running_metrics, hs] using hinv

/-- Witness for C7's reset clause at the constructed engine state and
symbol BTCUSDT. -/
theorem count_zero_iff_unset_invariant_witness :
    countZeroIffUnset ((reset_running_metrics initState).running_metrics
      "BTCUSDT") :=
  count_zero_iff_unset_invariant.2.2 initState "BTCUSDT"
    (count_zero_iff_unset_invariant.1 "BTCUSDT")

/-! ## C8: unknown instrument is rejected -/

/-- C8: for a symbol outside the tracked set, `update_running_metrics`
fails with the lookup error (the Python `KeyError`, the condition the spec
names `UnknownInstrumentError`); no updated state is produced, so every
tracked instrument's metrics are untouched. -/
theorem unknown_instrument_rejected (st : CollectorState) (symbol : String)
    (p : ℚ) (t : ℕ) (h : symbol ∉ st.symbols) :
    update_running_metrics st symbol p t = .error .keyError := by
  simp [update_running_metrics, h]

/-- Witness for C8 at the untracked symbol FOOBAR. -/
theorem unknown_instrument_rejected_witness :
    update_running_metrics initState "FOOBAR" 5 0 = .error .keyError :=
  unknown_instrument_rejected initState "FOOBAR" 5 0 (by decide)

/-! ## C9: rollover emission -/

/-- C9: the rows emitted by `store_downsampled_data` are, in order,
exactly one per tracked symbol whose accumulator has `sample_count > 0`
(symbols with zero samples are skipped silently); the order is the
tracked-symbol iteration order, and — `store_downsampled_data` being a
function of the state — the output is identical on repeated calls. -/
theorem rollover_emits_positive_counts (st : CollectorState) (t : ℕ) :
    (store_downsampled_data st t).map RolloverRecord.symbol
      = st.symbols.filter
          (fun s => 0 < (st.running_metrics s).sample_count) := by
  unfold store_downsampled_data
  induction st.symbols with
  | nil => simp
  | cons s ss ih =>
    rw [List.filterMap_cons, List.filter_cons]
    by_cases h : 0 < (st.running_metrics s).sample_count
    · simp only [gt_iff_lt, if_pos h]
      rw [List.map_cons, ih]
      simp [h, mkRecord]
    · simp only [gt_iff_lt, if_neg h]
      rw [ih]
      simp [h]

/-! ## C5: reset completeness and idempotent-safe rollover -/

/-- C5: after the reset step of a rollover, every tracked instrument's
accumulator equals the empty state exactly, and a second rollover with no
intervening ingest emits no rows. -/
theorem rollover_reset_complete (st : CollectorState) (t : ℕ) :
    (∀ s ∈ st.symbols,
      (reset_running_metrics st).running_metrics s = emptyMetrics) ∧
    store_downsampled_data (reset_running_metrics st) t = [] := by
  constructor
  · intro s hs
    simp [reset_running_metrics, hs]
  · unfold store_downsampled_data
    rw [List.filterMap_eq_nil_iff]
    intro s hs
    have hsym : (reset_running_metrics st).symbols = st.symbols := rfl
    rw [hsym] at hs
    simp [reset_running_metrics, hs, emptyMetrics]

/-- Witness for C5 at the state holding one BTCUSDT sample. -/
theorem rollover_reset_complete_witness :
    (reset_running_metrics demoState).running_metrics "BTCUSDT"
        = emptyMetrics ∧
    store_downsampled_data (reset_running_metrics demoState) 36000 = [] :=
  ⟨(rollover_reset_complete demoState 36000).1 "BTCUSDT" (by decide),
    (rollover_reset_complete demoState 36000).2⟩

/-! ## C10: per-instrument frame property -/

/-- C10: a successful `update_running_metrics` for symbol `s` leaves every
other symbol's accumulator unchanged, and its effect on `s` depends only
on `s`'s own accumulator (never on another instrument's). -/
theorem ingest_frame :
    (∀ (st : CollectorState) (s s' : String) (p : ℚ) (t : ℕ)
        (st' : CollectorState), s' ≠ s →
      update_running_metrics st s p t = .ok st' →
      st'.running_metrics s' = st.running_metrics s') ∧
    (∀ (st₁ st₂ : CollectorState) (s : String) (p : ℚ) (t : ℕ),
      st₁.symbols = st₂.symbols →
      st₁.running_metrics s = st₂.running_metrics s →
      (update_running_metrics st₁ s p t).map (fun st => st.running_metrics s)
        = (update_running_metrics st₂ s p t).map
            (fun st => st.running_metrics s)) := by
  constructor
  · intro st s s' p t st' hne h
    by_cases hm : s ∈ st.symbols
    · simp only [update_running_metrics, if_pos hm, Except.ok.injEq] at h
      rw [← h]
      simp [hne]
    · simp [update_running_metrics, hm] at h
  · intro st₁ st₂ s p t hsym hmet
    by_cases hm : s ∈ st₁.symbols
    · have hm₂ : s ∈ st₂.symbols := hsym ▸ hm
      simp [update_running_metrics, hm, hm₂, Except.map, hmet]
    · have hm₂ : s ∉ st₂.symbols := hsym ▸ hm
      simp [update_running_metrics, hm, hm₂, Except.map]

/-- Witness for C10: ingesting into BTCUSDT from the constructed state
leaves ETHUSDT's accumulator exactly as it was. -/
theorem ingest_frame_witness :
    (update_running_metrics initState "BTCUSDT" 5 0).map
        (fun st => st.running_metrics "ETHUSDT")
      = Except.ok (initState.running_metrics "ETHUSDT") := by
  obtain ⟨st', hok⟩ :
      ∃ st', update_running_metrics initState "BTCUSDT" 5 0 = .ok st' :=
    ⟨_, rfl⟩
  rw [hok]
  simp only [Except.map]
  exact congrArg Except.ok
    (ingest_frame.1 initState "BTCUSDT" "ETHUSDT" 5 0 st' (by decide) hok)

/-! ## C2: rollover bucket tagging -/

theorem mem_store_downsampled_data (st : CollectorState) (t : ℕ)
    (r : RolloverRecord) (hr : r ∈ store_downsampled_data st t) :
    r.date = t / 86400 ∧ r.hour = t % 86400 / 3600 := by
  unfold store_downsampled_data at hr
  rw [List.mem_filterMap] at hr
  obtain ⟨s, _, hsome⟩ := hr
  by_cases hc : (st.running_metrics s).sample_count > 0
  · rw [if_pos hc, Option.some.injEq] at hsome
    rw [← hsome]
    exact ⟨rfl, rfl⟩
  · rw [if_neg hc] at hsome
    exact absurd hsome (Option.noConfusion)

/-- C2 counterexample: with the previous tick at 08:30:00 (timestamp
30600, bucket hour 8) and the current tick at 11:00:02 (timestamp 39602),
the driver detects a crossing, yet the emitted record is tagged with the
10:00 bucket — not the bucket of the previous timestamp. -/
theorem rollover_tag_not_previous_bucket :
    hourOfDay 39602 ≠ hourOfDay 30600 ∧
    ((runBoundaryStep demoState (hourOfDay 30600) 39602).1.map
        fun r => r.date * 24 + r.hour) = [10] ∧
    bucketKeyFor 30600 = 8 := by
  refine ⟨by decide, ?_, by decide⟩
  decide

/-- C2 amended: the driver tags the rollover with the hour preceding the
current tick, `(current_time - 1 hour)` truncated; when the crossing is
to the immediately following hour bucket — as in the spec's
10:59:58 → 11:00:02 example — this coincides with the bucket of the
previous timestamp. -/
theorem rollover_tag_adjacent_bucket (st : CollectorState) (tprev tcur : ℕ)
    (h : bucketKeyFor tcur = bucketKeyFor tprev + 1) :
    hourOfDay tcur ≠ hourOfDay tprev ∧
    ∀ r ∈ (runBoundaryStep st (hourOfDay tprev) tcur).1,
      r.date * 24 + r.hour = bucketKeyFor tprev := by
  have hdet : hourOfDay tcur ≠ hourOfDay tprev := by
    unfold hourOfDay bucketKeyFor at *
    omega
  refine ⟨hdet, ?_⟩
  intro r hr
  rw [runBoundaryStep, if_pos hdet] at hr
  obtain ⟨hd, hh⟩ :=
    mem_store_downsampled_data st (rolloverTagTime tcur) r hr
  rw [hd, hh]
  unfold rolloverTagTime
  unfold hourOfDay bucketKeyFor at *
  omega

/-- Witness for the amended C2 at the spec's example timestamps: previous
tick 10:59:58 (39598), current tick 11:00:02 (39602); the crossing fires
and the emitted record is tagged with hour bucket 10. -/
theorem rollover_tag_adjacent_bucket_witness :
    hourOfDay 39602 ≠ hourOfDay 39598 ∧
    ((runBoundaryStep demoState (hourOfDay 39598) 39602).1.map
        fun r => r.date * 24 + r.hour) = [bucketKeyFor 39598] := by
  have h := rollover_tag_adjacent_bucket demoState 39598 39602 (by decide)
  exact ⟨h.1, by decide⟩

/-! ## C3: absence of price validation -/

/-- C3 counterexample: the non-positive price `-1` is not rejected —
`update_running_metrics` succeeds and mutates the accumulator
(`sample_count` goes from 0 to 1 and the sample is recorded); no
validation error exists in the source. -/
theorem negative_price_accepted :
    ((update_running_metrics initState "BTCUSDT" (-1) 0).map
        fun st => (st.running_metrics "BTCUSDT").sample_count)
      = Except.ok 1 := rfl

/-- C3 amended: `update_running_metrics` performs no price validation at
all: for any tracked symbol and any price whatsoever (non-positive
included), the call succeeds, records the price as the latest sample and
increments `sample_count` — every update step is applied
unconditionally. -/
theorem no_price_validation (st : CollectorState) (symbol : String)
    (p : ℚ) (t : ℕ) (h : symbol ∈ st.symbols) :
    ((update_running_metrics st symbol p t).map
        fun st' => ((st'.running_metrics symbol).sample_count,
          (st'.running_metrics symbol).latest_price))
      = Except.ok ((st.running_metrics symbol).sample_count + 1, some p) := by
  simp [update_running_metrics, h, Except.map, updateMetrics]

/-- Witness for the amended C3 at the tracked symbol BTCUSDT and the
invalid price `-1`. -/
theorem no_price_validation_witness :
    ((update_running_metrics initState "BTCUSDT" (-1) 0).map
        fun st' => ((st'.running_metrics "BTCUSDT").sample_count,
          (st'.running_metrics "BTCUSDT").latest_price))
      = Except.ok (1, some (-1)) := by
  have h := no_price_validation initState "BTCUSDT" (-1) 0 (by decide)
  simpa [initState, emptyMetrics] using h

end DataCollector
